import Mathlib

/-!
Shallow embedding of `src/network_monitor.py` (a periodic network-health
probe).  External subprocess invocations (ping, traceroute, whois, HTTP GET)
are modelled by outcome parameters: either the call failed (raised one of the
caught exceptions) or it produced an output text, given as a `List Char`.
The regular-expression searches of the source are embedded as executable
left-to-right scans; each pattern used by the source is deterministic (no
productive backtracking), so maximal-run scanning is exact.
-/

namespace NetAudit

/-- Python `\s` character class (ASCII range, as produced by the tools). -/
def pySpace (c : Char) : Bool :=
  c == ' ' || c == '\t' || c == '\n' || c == '\r' || c == '\x0b' || c == '\x0c'

/-- Python `[\d.]` character class. -/
def isDigitDot (c : Char) : Bool := c.isDigit || c == '.'

/-- Value of a nonempty digit string, as Python `int` computes it. -/
def digitsToNat (ds : List Char) : Nat :=
  ds.foldl (fun n c => 10 * n + (c.toNat - 48)) 0

/-- `re.search` position scan: try the matcher at every start position,
left to right, returning the first success. -/
def searchPos (f : List Char → Option α) : List Char → Option α
  | [] => f []
  | c :: cs =>
    match f (c :: cs) with
    | some r => some r
    | none => searchPos f cs

/-- Matches `\s+` (one or more whitespace) and drops it. -/
def dropSpaces1 (s : List Char) : Option (List Char) :=
  match s with
  | [] => none
  | c :: rest => if pySpace c then some (rest.dropWhile pySpace) else none

/-- Python `float()` applied to a nonempty string of digits and dots
(the only shapes the regex groups can produce): at most one dot and at
least one digit somewhere, else `ValueError` (modelled as `none`). -/
def parsePyFloat (s : List Char) : Option ℚ :=
  if s.isEmpty then none
  else if s.count '.' = 0 then some (digitsToNat s : ℚ)
  else if s.count '.' = 1 then
    let ipart := s.takeWhile (fun c => c ≠ '.')
    let fpart := (s.dropWhile (fun c => c ≠ '.')).tail
    if ipart.isEmpty ∧ fpart.isEmpty then none
    else some ((digitsToNat ipart : ℚ) + (digitsToNat fpart : ℚ) / ((10 : ℚ) ^ fpart.length))
  else none

/-! ## PingProber: `check_connection` -/

inductive OS where
  | windows
  | unix
deriving DecidableEq, Repr

/-- Outcome of the `subprocess.run` ping call: either one of the caught
exceptions was raised, or the command completed with the given stdout. -/
inductive PingOutcome where
  | failure
  | ok (output : List Char)
deriving DecidableEq, Repr

structure PingResult where
  success : Bool
  packet_loss : Nat
  avg_latency : ℚ
deriving DecidableEq, Repr

/-- The dictionary returned from the `except` branch of `check_connection`. -/
def pingFailResult : PingResult := ⟨false, 100, -1⟩

def lossLitU : List Char := "% packet loss".data
def lossLitW : List Char := "% loss)".data
def mdevLit : List Char := "min/avg/max/mdev = ".data
def msLit : List Char := " ms".data
def avgLitW : List Char := "Average = ".data
def msLitW : List Char := "ms".data

/-- One position of `re.search(r'(\d+)% packet loss', ...)`: a nonempty
maximal digit run directly followed by the literal. -/
def matchLossAtU (cs : List Char) : Option Nat :=
  let ds := cs.takeWhile Char.isDigit
  let rest := cs.dropWhile Char.isDigit
  if ds.isEmpty then none
  else if lossLitU.isPrefixOf rest then some (digitsToNat ds) else none

/-- One position of `re.search(r'\((\d+)% loss\)', ...)` (Windows branch). -/
def matchLossAtW (cs : List Char) : Option Nat :=
  match cs with
  | '(' :: rest =>
    let ds := rest.takeWhile Char.isDigit
    let rest2 := rest.dropWhile Char.isDigit
    if ds.isEmpty then none
    else if lossLitW.isPrefixOf rest2 then some (digitsToNat ds) else none
  | _ => none

/-- Drop a literal when it is the text's front, else fail. -/
def dropLit (lit s : List Char) : Option (List Char) :=
  if lit.isPrefixOf s then some (s.drop lit.length) else none

/-- One `[\d.]+` run followed by `/`. -/
def runSlash (s : List Char) : Option (List Char) :=
  let r := s.takeWhile isDigitDot
  let rest := s.dropWhile isDigitDot
  if r.isEmpty then none
  else
    match rest with
    | '/' :: rest2 => some rest2
    | _ => none

/-- One position of
`re.search(r'min/avg/max/mdev = [\d.]+/([\d.]+)/[\d.]+/[\d.]+ ms', ...)`;
returns the captured second field. -/
def matchAvgAtU (cs : List Char) : Option (List Char) :=
  match dropLit mdevLit cs with
  | none => none
  | some s0 =>
    match runSlash s0 with
    | none => none
    | some s1 =>
      let r2 := s1.takeWhile isDigitDot
      let s2 := s1.dropWhile isDigitDot
      if r2.isEmpty then none
      else
        match s2 with
        | '/' :: s3 =>
          match runSlash s3 with
          | none => none
          | some s4 =>
            let r4 := s4.takeWhile isDigitDot
            let s5 := s4.dropWhile isDigitDot
            if r4.isEmpty then none
            else if msLit.isPrefixOf s5 then some r2 else none
        | _ => none

/-- One position of `re.search(r'Average = (\d+)ms', ...)` (Windows branch). -/
def matchAvgAtW (cs : List Char) : Option Nat :=
  match dropLit avgLitW cs with
  | none => none
  | some s0 =>
    let ds := s0.takeWhile Char.isDigit
    let rest := s0.dropWhile Char.isDigit
    if ds.isEmpty then none
    else if msLitW.isPrefixOf rest then some (digitsToNat ds) else none

/-- The packet-loss regex search of `check_connection`, per OS branch. -/
def pingLossMatch (os : OS) (output : List Char) : Option Nat :=
  match os with
  | .windows => searchPos matchLossAtW output
  | .unix => searchPos matchLossAtU output

/-- The packet-loss regex search lifted to command outcomes. -/
def pingLossMatchOutcome (os : OS) : PingOutcome → Option Nat
  | .failure => none
  | .ok output => pingLossMatch os output

/-- `check_connection` (src/network_monitor.py, lines 85-135): runs ping,
parses loss percentage and average latency; on any caught exception —
including the `ValueError` Python raises when `float()` is applied to a
matched latency group that is not a valid number — returns the failure
dictionary. -/
def check_connection (os : OS) (out : PingOutcome) : PingResult :=
  match out with
  | .failure => pingFailResult
  | .ok output =>
    match os with
    | .windows =>
      let packet_loss := (searchPos matchLossAtW output).getD 100
      let avg_latency : ℚ :=
        match searchPos matchAvgAtW output with
        | some n => (n : ℚ)
        | none => -1
      ⟨decide (packet_loss < 100), packet_loss, avg_latency⟩
    | .unix =>
      let packet_loss := (searchPos matchLossAtU output).getD 100
      match searchPos matchAvgAtU output with
      | none => ⟨decide (packet_loss < 100), packet_loss, -1⟩
      | some grp =>
        match parsePyFloat grp with
        | none => pingFailResult
        | some q => ⟨decide (packet_loss < 100), packet_loss, q⟩

/-! ## HopEnricher: `get_whois_info` -/

structure Whois where
  org_name : List Char
  country : List Char
deriving DecidableEq, Repr

/-- The dictionary `get_whois_info` initialises and returns unchanged on the
private-range fast path or on any caught failure. -/
def defaultWhois : Whois := ⟨"N/A".data, "N/A".data⟩

/-- Outcome of the `subprocess.check_output(['whois', ip])` call. -/
inductive WhoisOutcome where
  | failure
  | ok (output : List Char)
deriving DecidableEq, Repr

/-- The literal prefix tuple of the private-address check in
`get_whois_info` (src/network_monitor.py, line 148). -/
def privateIpLits : List (List Char) :=
  ["192.168.", "10.", "172.16.", "172.17.", "172.18.", "172.19.", "172.20.",
   "172.21.", "172.22.", "172.23.", "172.24.", "172.25.", "172.26.", "172.27.",
   "172.28.", "172.29.", "172.30.", "172.31."].map String.data

/-- `ip_address.startswith((...))`. -/
def isPrivateIp (ip : List Char) : Bool :=
  privateIpLits.any (fun p => p.isPrefixOf ip)

/-- Case-insensitive literal-front test (`re.IGNORECASE` on ASCII labels). -/
def ciFront (lit s : List Char) : Bool :=
  (s.take lit.length).map Char.toLower == lit

/-- Python `str.strip()`. -/
def pyStrip (s : List Char) : List Char :=
  ((s.dropWhile pySpace).reverse.dropWhile pySpace).reverse

/-- `\s+(.+)` when only whitespace remains after the colon: the greedy `\s+`
backtracks to leave the latest non-newline whitespace character for `.+`. -/
def wsTailGroup (ws : List Char) : Option (List Char) :=
  (((List.range ws.length).reverse.filter (fun j => 1 ≤ j)).find?
      (fun j => !((ws.drop j).head? == some '\n'))).map
    (fun j => (ws.drop j).takeWhile (fun c => c ≠ '\n'))

/-- After a matched field label: `:\s+(.+)`, `.` excluding newline. -/
def matchFieldRest (rest : List Char) : Option (List Char) :=
  match rest with
  | ':' :: r2 =>
    let ws := r2.takeWhile pySpace
    let body := r2.dropWhile pySpace
    if ws.isEmpty then none
    else if body.isEmpty then wsTailGroup ws
    else some (body.takeWhile (fun c => c ≠ '\n'))
  | _ => none

/-- One alternative of the label alternation at one position. -/
def tryFieldLabel (lab cs : List Char) : Option (List Char) :=
  if ciFront lab cs then matchFieldRest (cs.drop lab.length) else none

def orgLab1 : List Char := "orgname".data
def orgLab2 : List Char := "organization".data
def orgLab3 : List Char := "descr".data
def countryLab : List Char := "country".data

/-- One position of
`re.search(r'(OrgName|organization|descr):\s+(.+)', ..., re.IGNORECASE)`. -/
def matchOrgAt (cs : List Char) : Option (List Char) :=
  match tryFieldLabel orgLab1 cs with
  | some r => some r
  | none =>
    match tryFieldLabel orgLab2 cs with
    | some r => some r
    | none => tryFieldLabel orgLab3 cs

/-- One position of
`re.search(r'(Country|country):\s+(.+)', ..., re.IGNORECASE)`. -/
def matchCountryAt (cs : List Char) : Option (List Char) :=
  tryFieldLabel countryLab cs

/-- `get_whois_info` (src/network_monitor.py, lines 137-169).  The returned
flag records whether the external `whois` command was invoked; the oracle is
that command's outcome.  On the private fast path no lookup happens; on any
caught failure the defaults survive. -/
def get_whois_info (oracle : WhoisOutcome) (ip_address : List Char) :
    Whois × Bool :=
  if isPrivateIp ip_address then (defaultWhois, false)
  else
    match oracle with
    | .failure => (defaultWhois, true)
    | .ok output =>
      let org := match searchPos matchOrgAt output with
        | some g => pyStrip g
        | none => defaultWhois.org_name
      let ctry := match searchPos matchCountryAt output with
        | some g => pyStrip g
        | none => defaultWhois.country
      (⟨org, ctry⟩, true)

/-! ## PathTracer: `run_traceroute`

The source branches on the OS; its Windows branch contains the defect noted
in spec §9 (`match(3)` instead of `match.group(3)`, raising a `TypeError`
that the `except` tuple does not catch) and the spec directs that branch to
be treated as unspecified, so the embedding covers the POSIX branch, the one
every claim's behaviour is drawn from. -/

/-- Python `str.splitlines()` (over the line breaks traceroute emits). -/
def pySplitlines : List Char → List (List Char) :=
  go []
where
  go (acc : List Char) : List Char → List (List Char)
    | [] => if acc.isEmpty then [] else [acc.reverse]
    | '\r' :: '\n' :: rest => acc.reverse :: go [] rest
    | '\r' :: rest => acc.reverse :: go [] rest
    | '\n' :: rest => acc.reverse :: go [] rest
    | c :: rest => go (c :: acc) rest

structure Hop where
  hop : ℤ
  hostname : List Char
  ip : List Char
  latency : ℚ
  whois : Whois
deriving DecidableEq, Repr

/-- The synthetic record appended by the `except` branch of
`run_traceroute`. -/
def failHop : Hop :=
  ⟨-1, "Traceroute Failed".data, "Traceroute Failed".data, -1, defaultWhois⟩

/-- One position (anchored by `^` at position 0 only) of
`re.search(r'^\s*(\d+)\s+([^\s]+)\s+\(([\d.]+)\).*?([\d.]+) ms', line)`:
returns hop number, hostname, ip and the raw latency group. -/
def matchHopLine (line : List Char) :
    Option (Nat × List Char × List Char × List Char) :=
  let s1 := line.dropWhile pySpace
  let ds := s1.takeWhile Char.isDigit
  let s2 := s1.dropWhile Char.isDigit
  if ds.isEmpty then none
  else
    match dropSpaces1 s2 with
    | none => none
    | some s3 =>
      let host := s3.takeWhile (fun c => !pySpace c)
      let s4 := s3.dropWhile (fun c => !pySpace c)
      if host.isEmpty then none
      else
        match dropSpaces1 s4 with
        | none => none
        | some s5 =>
          match s5 with
          | '(' :: s6 =>
            let ipc := s6.takeWhile isDigitDot
            let s7 := s6.dropWhile isDigitDot
            if ipc.isEmpty then none
            else
              match s7 with
              | ')' :: s8 =>
                match searchPos (fun cs =>
                    let r := cs.takeWhile isDigitDot
                    let rest := cs.dropWhile isDigitDot
                    if r.isEmpty then none
                    else if msLit.isPrefixOf rest then some r else none) s8 with
                | none => none
                | some latStr => some (digitsToNat ds, host, ipc, latStr)
              | _ => none
          | _ => none

/-- `re.search(r'^\s*\d+\s+\* \*\s*\*.*', line)` as a Boolean test. -/
def matchTimeoutLine (line : List Char) : Bool :=
  let s1 := line.dropWhile pySpace
  let ds := s1.takeWhile Char.isDigit
  let s2 := s1.dropWhile Char.isDigit
  if ds.isEmpty then false
  else
    match dropSpaces1 s2 with
    | none => false
    | some s3 =>
      match s3 with
      | '*' :: ' ' :: '*' :: s4 =>
        match s4.dropWhile pySpace with
        | '*' :: _ => true
        | _ => false
      | _ => false

/-- `line.strip().split()[0]` — the first whitespace-delimited token. -/
def firstToken (line : List Char) : List Char :=
  (line.dropWhile pySpace).takeWhile (fun c => !pySpace c)

/-- The loop body of `run_traceroute` over the split output lines.  The
Boolean reports whether the loop was aborted by a caught exception (the
`ValueError` raised when `float()` meets a malformed latency group); hops
appended before the abort are kept, mirroring the mutated list. -/
def parseTrLines (oracle : List Char → WhoisOutcome) :
    List (List Char) → List Hop × Bool
  | [] => ([], false)
  | line :: rest =>
    if line.isEmpty then parseTrLines oracle rest
    else
      match matchHopLine line with
      | some (n, host, ipc, latStr) =>
        match parsePyFloat latStr with
        | none => ([], true)
        | some lat =>
          let h : Hop := ⟨(n : ℤ), host, ipc, lat,
            (get_whois_info (oracle ipc) ipc).1⟩
          let r := parseTrLines oracle rest
          (h :: r.1, r.2)
      | none =>
        if matchTimeoutLine line then
          let h : Hop := ⟨(digitsToNat (firstToken line) : ℤ),
            "Timed Out".data, "Timed Out".data, -1, defaultWhois⟩
          let r := parseTrLines oracle rest
          (h :: r.1, r.2)
        else parseTrLines oracle rest

/-- Outcome of the `subprocess.check_output` traceroute call. -/
inductive TraceOutcome where
  | failure
  | ok (output : List Char)
deriving DecidableEq, Repr

/-- `run_traceroute` (src/network_monitor.py, lines 171-262), POSIX branch:
on a failed command the result list (empty at that point) receives the
synthetic record; on a mid-parse exception the records parsed so far receive
it; otherwise the parsed records are returned as-is. -/
def run_traceroute (oracle : List Char → WhoisOutcome) (out : TraceOutcome) :
    List Hop :=
  match out with
  | .failure => [failHop]
  | .ok output =>
    let r := parseTrLines oracle (pySplitlines output)
    if r.2 then r.1 ++ [failHop] else r.1

/-! ## AppLatencyProbe: `check_application_response_time` -/

/-- Outcome of the `requests.get` call: a network-level failure, or a
response with a status code and the measured wall-clock elapsed time. -/
inductive AppOutcome where
  | netFailure
  | response (status : Nat) (elapsed : ℚ)
deriving DecidableEq, Repr

/-- `check_application_response_time` (src/network_monitor.py, lines
290-305): `raise_for_status()` raises exactly for 4xx/5xx codes, and every
`RequestException` path returns -1. -/
def check_application_response_time : AppOutcome → ℚ
  | .netFailure => -1
  | .response status elapsed =>
    if 400 ≤ status ∧ status < 600 then -1 else elapsed

/-! ## MonitorLoop: the metric-publishing step of `main` -/

/-- `str()` of a Python int, for the `hop` label. -/
def intChars (z : ℤ) : List Char :=
  if z < 0 then '-' :: Nat.toDigits 10 z.natAbs else Nat.toDigits 10 z.toNat

/-- The label triple `labels(hop=str(hop['hop']), ip=.., hostname=..)`. -/
abbrev HopLabel := List Char × List Char × List Char

def hopLabel (h : Hop) : HopLabel := (intChars h.hop, h.ip, h.hostname)

/-- `labels(...).set(v)` on a labelled gauge: replace the labelled child if
present, else add it. -/
def setLabelled : List (HopLabel × ℚ) → HopLabel → ℚ → List (HopLabel × ℚ)
  | [], k, v => [(k, v)]
  | e :: rest, k, v =>
    if e.1 = k then (k, v) :: rest else e :: setLabelled rest k v

/-- Lookup of a labelled child's current value. -/
def lookupLabel : List (HopLabel × ℚ) → HopLabel → Option ℚ
  | [], _ => none
  | e :: rest, k => if e.1 = k then some e.2 else lookupLabel rest k

/-- The gauges the loop body of `main` publishes each cycle. -/
structure Metrics where
  ping_latency : ℚ
  packet_loss : ℚ
  hop_count : ℚ
  hop_latency : List (HopLabel × ℚ)
  app_response : ℚ
deriving DecidableEq, Repr

/-- The body of the per-hop loop of `main` (lines 363-369): set a labelled
entry for hops whose latency is not the -1 sentinel, skip the rest. -/
def publishHopStep (acc : Metrics) (h : Hop) : Metrics :=
  if h.latency ≠ -1 then
    { acc with hop_latency := setLabelled acc.hop_latency (hopLabel h) h.latency }
  else acc

/-- The gauge-update block of one cycle of `main` (src/network_monitor.py,
lines 353-369): set ping latency, packet loss and hop count; set the
application gauge only when the probe did not report -1; clear the per-hop
labelled series, then set one labelled entry per hop whose latency is
not -1. -/
def publishCycle (m : Metrics) (ping : PingResult) (hops : List Hop)
    (app_time : ℚ) : Metrics :=
  let m1 : Metrics :=
    { m with
      ping_latency := ping.avg_latency
      packet_loss := (ping.packet_loss : ℚ)
      hop_count := (hops.length : ℚ) }
  let m2 : Metrics := if app_time ≠ -1 then { m1 with app_response := app_time } else m1
  let m3 : Metrics := { m2 with hop_latency := [] }
  hops.foldl publishHopStep m3

/-! ## MonitorLoop: severity classification and log decision -/

inductive Severity where
  | nominal
  | degraded
  | outage
deriving DecidableEq, Repr

/-- The `SOUND_ENABLED` configuration constant (line 58). -/
def SOUND_ENABLED : Bool := true

/-- The colour/alert branch of `main` (src/network_monitor.py, lines
371-383): green/no alert at zero loss, yellow with alert for partial loss,
red with alert otherwise. -/
def classifyCycle (loss : Nat) : Severity × Bool :=
  if loss = 0 then (.nominal, false)
  else if 0 < loss ∧ loss < 100 then (.degraded, SOUND_ENABLED)
  else (.outage, SOUND_ENABLED)

/-- The log-append decision of `main` (src/network_monitor.py, lines
417-420): append the cycle's report exactly when there is packet loss or
some hop's latency is the -1 sentinel. -/
def logAfterCycle (log : List (List Char)) (report : List Char) (loss : Nat)
    (hops : List Hop) : List (List Char) :=
  if 0 < loss ∨ ∃ h ∈ hops, h.latency = -1 then log ++ [report] else log

/-- The average-latency regex search of `check_connection` found a match,
per OS branch. -/
def pingAvgFound (os : OS) (output : List Char) : Bool :=
  match os with
  | .windows => (searchPos matchAvgAtW output).isSome
  | .unix => (searchPos matchAvgAtU output).isSome

/-! ## Helper lemmas -/

lemma check_connection_success_eq (os : OS) (out : PingOutcome) :
    (check_connection os out).success =
      decide ((check_connection os out).packet_loss < 100) := by
  cases out with
  | failure => rfl
  | ok output =>
    cases os with
    | windows => rfl
    | unix =>
      cases havg : searchPos matchAvgAtU output with
      | none => simp [check_connection, havg]
      | some grp =>
        cases hf : parsePyFloat grp with
        | none => simp [check_connection, havg, hf, pingFailResult]
        | some q => simp [check_connection, havg, hf]

lemma foldl_publishHopStep_ping_latency (hops : List Hop) (m : Metrics) :
    (hops.foldl publishHopStep m).ping_latency = m.ping_latency := by
  induction hops generalizing m with
  | nil => rfl
  | cons h t ih =>
    rw [List.foldl_cons, ih]
    by_cases hc : h.latency ≠ -1 <;> simp [publishHopStep, hc]

lemma foldl_publishHopStep_app_response (hops : List Hop) (m : Metrics) :
    (hops.foldl publishHopStep m).app_response = m.app_response := by
  induction hops generalizing m with
  | nil => rfl
  | cons h t ih =>
    rw [List.foldl_cons, ih]
    by_cases hc : h.latency ≠ -1 <;> simp [publishHopStep, hc]

lemma foldl_publishHopStep_hop_count (hops : List Hop) (m : Metrics) :
    (hops.foldl publishHopStep m).hop_count = m.hop_count := by
  induction hops generalizing m with
  | nil => rfl
  | cons h t ih =>
    rw [List.foldl_cons, ih]
    by_cases hc : h.latency ≠ -1 <;> simp [publishHopStep, hc]

lemma publishCycle_ping_latency (m : Metrics) (p : PingResult)
    (hops : List Hop) (t : ℚ) :
    (publishCycle m p hops t).ping_latency = p.avg_latency := by
  rw [publishCycle, foldl_publishHopStep_ping_latency]
  by_cases hc : t ≠ -1 <;> simp [hc]

lemma publishCycle_app_response (m : Metrics) (p : PingResult)
    (hops : List Hop) :
    (publishCycle m p hops (-1)).app_response = m.app_response := by
  rw [publishCycle, foldl_publishHopStep_app_response]
  simp

/-! ## Claim theorems (ping prober and severity) -/

/-- C3: if the ping command fails to start or times out, or its output
matches neither the packet-loss nor the average-latency pattern,
`check_connection` returns the failure dictionary `success = false`,
`packet_loss = 100`, `avg_latency = -1`; the embedding is a total function,
so no exception reaches the caller. -/
theorem spec_c3_ping_failure_contract (os : OS) (out : PingOutcome)
    (h : out = PingOutcome.failure ∨ ∃ output, out = PingOutcome.ok output ∧
        pingLossMatch os output = none ∧ pingAvgFound os output = false) :
    check_connection os out = pingFailResult := by
  rcases h with rfl | ⟨output, rfl, hl, ha⟩
  · rfl
  · cases os with
    | windows =>
      simp only [pingLossMatch] at hl
      cases havg : searchPos matchAvgAtW output with
      | some v => rw [pingAvgFound, havg] at ha; simp at ha
      | none => simp [check_connection, hl, havg, pingFailResult]
    | unix =>
      simp only [pingLossMatch] at hl
      cases havg : searchPos matchAvgAtU output with
      | some v => rw [pingAvgFound, havg] at ha; simp at ha
      | none => simp [check_connection, hl, havg, pingFailResult]

/-- C3 witness: an output text matching no known pattern yields the failure
dictionary. -/
theorem spec_c3_witness :
    check_connection OS.unix (PingOutcome.ok ("hello".data)) = pingFailResult :=
  spec_c3_ping_failure_contract OS.unix _
    (Or.inr ⟨_, rfl, by decide, by decide⟩)

/-- C10: on the POSIX branch, when the packet-loss pattern matches with
value `n` but the average-latency pattern does not, the result is a partial
parse: the parsed loss, success decided by it, and the -1 latency sentinel —
not the total-failure dictionary. -/
theorem spec_c10_partial_parse (output : List Char) (n : Nat)
    (hl : pingLossMatch OS.unix output = some n)
    (ha : pingAvgFound OS.unix output = false) :
    check_connection OS.unix (PingOutcome.ok output) =
      ⟨decide (n < 100), n, -1⟩ := by
  simp only [pingLossMatch] at hl
  cases havg : searchPos matchAvgAtU output with
  | some v => rw [pingAvgFound, havg] at ha; simp at ha
  | none => simp [check_connection, hl, havg]

/-- C10 witness: a loss-only output parses partially. -/
theorem spec_c10_witness :
    check_connection OS.unix (PingOutcome.ok ("25% packet loss".data)) =
      ⟨true, 25, -1⟩ :=
  spec_c10_partial_parse ("25% packet loss".data) 25 (by decide) (by decide)

/-- C4: every `check_connection` result has `success` exactly when the loss
is under 100, and the severity branch of `main` classifies loss 0 as nominal
with no alert, strictly partial loss as degraded with an alert, and loss 100
as outage with an alert. -/
theorem spec_c4_severity (os : OS) (out : PingOutcome) :
    ((check_connection os out).success = true ↔
        (check_connection os out).packet_loss < 100) ∧
    ((check_connection os out).packet_loss = 0 →
        classifyCycle (check_connection os out).packet_loss =
          (Severity.nominal, false)) ∧
    (0 < (check_connection os out).packet_loss →
        (check_connection os out).packet_loss < 100 →
        classifyCycle (check_connection os out).packet_loss =
          (Severity.degraded, true)) ∧
    ((check_connection os out).packet_loss = 100 →
        classifyCycle (check_connection os out).packet_loss =
          (Severity.outage, true)) := by
  refine ⟨?_, ?_, ?_, ?_⟩
  · rw [check_connection_success_eq]
    exact decide_eq_true_iff
  · intro h; simp [classifyCycle, h]
  · intro h1 h2
    have h0 : ¬((check_connection os out).packet_loss = 0) := by omega
    simp [classifyCycle, h0, h1, h2, SOUND_ENABLED]
  · intro h; simp [classifyCycle, h, SOUND_ENABLED]

/-- C9: the ping latency gauge is set unconditionally every cycle to the
probe's average latency, so a cycle whose ping command fails publishes the
-1 sentinel instead of keeping the gauge's prior value. -/
theorem spec_c9_ping_gauge_unconditional (m : Metrics) (os : OS)
    (hops : List Hop) (t : ℚ) :
    (publishCycle m (check_connection os PingOutcome.failure) hops t).ping_latency
        = -1 ∧
    ∀ p : PingResult, (publishCycle m p hops t).ping_latency = p.avg_latency := by
  refine ⟨?_, fun p => publishCycle_ping_latency m p hops t⟩
  rw [publishCycle_ping_latency]
  rfl

/-- C8: a network failure or a 4xx/5xx status makes
`check_application_response_time` return the -1 failure marker, and the
application gauge keeps its previous value through the publish step. -/
theorem spec_c8_app_gauge_frozen (m : Metrics) (p : PingResult)
    (hops : List Hop) (o : AppOutcome)
    (h : o = AppOutcome.netFailure ∨
        ∃ s t, o = AppOutcome.response s t ∧ 400 ≤ s ∧ s < 600) :
    check_application_response_time o = -1 ∧
    (publishCycle m p hops (check_application_response_time o)).app_response =
      m.app_response := by
  have hval : check_application_response_time o = -1 := by
    rcases h with rfl | ⟨s, t, rfl, h1, h2⟩
    · rfl
    · simp [check_application_response_time, h1, h2]
  rw [hval]
  exact ⟨rfl, publishCycle_app_response m p hops⟩

/-- C8 witness: an HTTP 500 response freezes the application gauge. -/
theorem spec_c8_witness :
    check_application_response_time (AppOutcome.response 500 123) = -1 ∧
    (publishCycle ⟨0, 0, 0, [], 77⟩ ⟨true, 0, 12⟩ []
        (check_application_response_time (AppOutcome.response 500 123))).app_response =
      (⟨0, 0, 0, [], 77⟩ : Metrics).app_response :=
  spec_c8_app_gauge_frozen ⟨0, 0, 0, [], 77⟩ ⟨true, 0, 12⟩ []
    (AppOutcome.response 500 123)
    (Or.inr ⟨500, 123, rfl, by omega, by omega⟩)

/-- C7: the cycle's report is appended to the log exactly when packet loss
is positive or some hop of the cycle carries the unknown-latency sentinel;
a nominal cycle with complete data leaves the log unchanged. -/
theorem spec_c7_log_iff (log : List (List Char)) (report : List Char)
    (loss : Nat) (hops : List Hop) :
    logAfterCycle log report loss hops ≠ log ↔
      (0 < loss ∨ ∃ h ∈ hops, h.latency = -1) := by
  rw [logAfterCycle]
  by_cases h : 0 < loss ∨ ∃ h ∈ hops, h.latency = -1
  · rw [if_pos h]
    simp only [h, iff_true]
    intro he
    have hlen := congrArg List.length he
    simp at hlen
  · rw [if_neg h]
    simp [h]

/-! ## Claim theorems (traceroute totality, loss range, private ranges) -/

/-- C1 counterexample: a traceroute command that runs successfully but whose
output contains no line matching either hop grammar (here: only the header
line traceroute always prints) yields the empty sequence — the result is not
non-empty on every invocation. -/
theorem spec_c1_counterexample :
    run_traceroute (fun _ => WhoisOutcome.failure)
      (TraceOutcome.ok ("traceroute to 8.8.8.8 (8.8.8.8), 64 hops max".data)) =
      [] := by decide

/-- C1 amended: when the whole traceroute command fails to run or times out,
`run_traceroute` returns exactly one synthetic record with hop index -1 and
hostname/ip `Traceroute Failed`; when the command succeeds, the result holds
the hops parsed from its output and may be empty if no line matches. -/
theorem spec_c1_total_failure (oracle : List Char → WhoisOutcome) :
    run_traceroute oracle TraceOutcome.failure = [failHop] := rfl

/-- C2 counterexample: an output text reporting a loss percentage above 100
is parsed verbatim, so the produced packet_loss exceeds 100. -/
theorem spec_c2_counterexample :
    100 < (check_connection OS.unix
        (PingOutcome.ok ("150% packet loss".data))).packet_loss := by decide

/-- C2 amended: the packet_loss value is a nonnegative integer and is at
most 100 whenever the percentage matched in the output text (if any) is at
most 100 — in particular in every cycle where the text reports a loss
percentage of at most 100 or matches no pattern. -/
theorem spec_c2_loss_range (os : OS) (out : PingOutcome)
    (h : ∀ n, pingLossMatchOutcome os out = some n → n ≤ 100) :
    (check_connection os out).packet_loss ≤ 100 := by
  cases out with
  | failure => simp [check_connection, pingFailResult]
  | ok output =>
    cases os with
    | windows =>
      cases heq : searchPos matchLossAtW output with
      | none => simp [check_connection, heq]
      | some n =>
        have hn := h n (by simpa [pingLossMatchOutcome, pingLossMatch] using heq)
        simp [check_connection, heq, hn]
    | unix =>
      cases heq : searchPos matchLossAtU output with
      | none =>
        cases havg : searchPos matchAvgAtU output with
        | none => simp [check_connection, heq, havg]
        | some grp =>
          cases hf : parsePyFloat grp <;>
            simp [check_connection, heq, havg, hf, pingFailResult]
      | some n =>
        have hn := h n (by simpa [pingLossMatchOutcome, pingLossMatch] using heq)
        cases havg : searchPos matchAvgAtU output with
        | none => simp [check_connection, heq, havg, hn]
        | some grp =>
          cases hf : parsePyFloat grp <;>
            simp [check_connection, heq, havg, hf, pingFailResult, hn]

/-- C2 witness: a well-formed ping output keeps the loss in range. -/
theorem spec_c2_witness :
    (check_connection OS.unix
        (PingOutcome.ok ("0% packet loss".data))).packet_loss ≤ 100 :=
  spec_c2_loss_range OS.unix _ (by
    intro n hn
    have h0 : pingLossMatchOutcome OS.unix
        (PingOutcome.ok ("0% packet loss".data)) = some 0 := by decide
    rw [h0] at hn
    injection hn with h2
    omega)

/-- The decimal rendering of a dotted-quad address, one octet at a time. -/
def ipChars (a b c d : Nat) : List Char :=
  Nat.toDigits 10 a ++ '.' ::
    (Nat.toDigits 10 b ++ '.' :: (Nat.toDigits 10 c ++ '.' :: Nat.toDigits 10 d))

lemma isPrefixOf_append_self (p r : List Char) : p.isPrefixOf (p ++ r) = true := by
  induction p with
  | nil => simp
  | cons c cs ih => simp [List.isPrefixOf_cons₂, ih]

lemma isPrivateIp_of_mem (p rest : List Char) (hp : p ∈ privateIpLits) :
    isPrivateIp (p ++ rest) = true := by
  rw [isPrivateIp, List.any_eq_true]
  exact ⟨p, hp, isPrefixOf_append_self p rest⟩

lemma isPrivateIp_ten (b c d : Nat) : isPrivateIp (ipChars 10 b c d) = true := by
  have he : ipChars 10 b c d =
      "10.".data ++
        (Nat.toDigits 10 b ++ '.' :: (Nat.toDigits 10 c ++ '.' :: Nat.toDigits 10 d)) :=
    rfl
  rw [he]
  exact isPrivateIp_of_mem _ _ (by decide)

lemma isPrivateIp_oneSevenTwo (b c d : Nat) (h16 : 16 ≤ b) (h31 : b ≤ 31) :
    isPrivateIp (ipChars 172 b c d) = true := by
  have he : ipChars 172 b c d =
      ('1' :: '7' :: '2' :: '.' :: (Nat.toDigits 10 b ++ ['.'])) ++
        (Nat.toDigits 10 c ++ '.' :: Nat.toDigits 10 d) := by
    simp only [ipChars]
    rw [show Nat.toDigits 10 172 = ['1', '7', '2'] from rfl]
    simp [List.append_assoc]
  rw [he]
  refine isPrivateIp_of_mem _ _ ?_
  interval_cases b <;> decide

lemma isPrivateIp_oneNineTwo (c d : Nat) :
    isPrivateIp (ipChars 192 168 c d) = true := by
  have he : ipChars 192 168 c d =
      "192.168.".data ++ (Nat.toDigits 10 c ++ '.' :: Nat.toDigits 10 d) := rfl
  rw [he]
  exact isPrivateIp_of_mem _ _ (by decide)

/-- C5: for every address in 10.0.0.0/8, 172.16.0.0/12 or 192.168.0.0/16,
`get_whois_info` performs no external lookup (the flag is `false`) and
returns the default OwnershipInfo, whatever the lookup oracle would say. -/
theorem spec_c5_private_no_lookup (oracle : WhoisOutcome) (a b c d : Nat)
    (h : a = 10 ∨ (a = 172 ∧ 16 ≤ b ∧ b ≤ 31) ∨ (a = 192 ∧ b = 168)) :
    get_whois_info oracle (ipChars a b c d) = (defaultWhois, false) := by
  have hp : isPrivateIp (ipChars a b c d) = true := by
    rcases h with rfl | ⟨rfl, h16, h31⟩ | ⟨rfl, rfl⟩
    · exact isPrivateIp_ten b c d
    · exact isPrivateIp_oneSevenTwo b c d h16 h31
    · exact isPrivateIp_oneNineTwo c d
  simp [get_whois_info, hp]

/-- C5 witness: 10.0.0.1 short-circuits even against an oracle that would
report an owner. -/
theorem spec_c5_witness :
    get_whois_info (WhoisOutcome.ok ("OrgName: Evil Corp\nCountry: XX".data))
      (ipChars 10 0 0 1) = (defaultWhois, false) :=
  spec_c5_private_no_lookup _ 10 0 0 1 (Or.inl rfl)

/-! ## Claim theorem (per-hop labelled series) -/

lemma lookupLabel_setLabelled (s : List (HopLabel × ℚ)) (k k' : HopLabel)
    (v : ℚ) :
    lookupLabel (setLabelled s k v) k' =
      if k = k' then some v else lookupLabel s k' := by
  induction s with
  | nil => simp [setLabelled, lookupLabel]
  | cons e rest ih =>
    simp only [setLabelled]
    by_cases h1 : e.1 = k
    · subst h1
      by_cases h2 : e.1 = k' <;> simp [lookupLabel, h2]
    · rw [if_neg h1]
      by_cases h2 : e.1 = k'
      · have hk : ¬(k = k') := fun hh => h1 (h2.trans hh.symm)
        simp [lookupLabel, h2, hk]
      · simp [lookupLabel, h2, ih]

/-- The per-hop loop of `main` at the level of the labelled series alone. -/
def hopSeriesStep (s : List (HopLabel × ℚ)) (h : Hop) : List (HopLabel × ℚ) :=
  if h.latency ≠ -1 then setLabelled s (hopLabel h) h.latency else s

lemma foldl_publishHopStep_hop_latency (hops : List Hop) (m : Metrics) :
    (hops.foldl publishHopStep m).hop_latency =
      hops.foldl hopSeriesStep m.hop_latency := by
  induction hops generalizing m with
  | nil => rfl
  | cons h t ih =>
    rw [List.foldl_cons, List.foldl_cons, ih]
    by_cases hc : h.latency ≠ -1 <;> simp [publishHopStep, hopSeriesStep, hc]

lemma lookup_foldl_hopSeriesStep (hops : List Hop) (s : List (HopLabel × ℚ))
    (k : HopLabel) :
    (lookupLabel (hops.foldl hopSeriesStep s) k).isSome = true ↔
      ((lookupLabel s k).isSome = true ∨
        ∃ h ∈ hops, h.latency ≠ -1 ∧ hopLabel h = k) := by
  induction hops generalizing s with
  | nil => simp
  | cons h t ih =>
    rw [List.foldl_cons]
    by_cases hc : h.latency ≠ -1
    · rw [show hopSeriesStep s h = setLabelled s (hopLabel h) h.latency from
        if_pos hc]
      rw [ih]
      rw [lookupLabel_setLabelled]
      by_cases hk : hopLabel h = k
      · subst hk
        rw [if_pos rfl]
        constructor
        · intro _
          exact Or.inr ⟨h, List.mem_cons_self h t, hc, rfl⟩
        · intro _
          exact Or.inl (by simp)
      · rw [if_neg hk]
        simp only [List.mem_cons]
        constructor
        · rintro (hs | ⟨h', hm, hl, he⟩)
          · exact Or.inl hs
          · exact Or.inr ⟨h', Or.inr hm, hl, he⟩
        · rintro (hs | ⟨h', (rfl | hm), hl, he⟩)
          · exact Or.inl hs
          · exact absurd he hk
          · exact Or.inr ⟨h', hm, hl, he⟩
    · rw [show hopSeriesStep s h = s from if_neg hc]
      rw [ih]
      simp only [List.mem_cons]
      constructor
      · rintro (hs | ⟨h', hm, hl, he⟩)
        · exact Or.inl hs
        · exact Or.inr ⟨h', Or.inr hm, hl, he⟩
      · rintro (hs | ⟨h', (rfl | hm), hl, he⟩)
        · exact Or.inl hs
        · exact absurd hl hc
        · exact Or.inr ⟨h', hm, hl, he⟩

/-- C6: after the publish step, the per-hop labelled latency series holds an
entry exactly for the labels of the current cycle's hops with known latency
(the clear() wipes all prior labels), while the hop-count gauge counts every
hop record, unknown latency included. -/
theorem spec_c6_hop_series (m : Metrics) (p : PingResult) (hops : List Hop)
    (t : ℚ) :
    (publishCycle m p hops t).hop_count = (hops.length : ℚ) ∧
    ∀ k : HopLabel,
      (lookupLabel (publishCycle m p hops t).hop_latency k).isSome = true ↔
        ∃ h ∈ hops, h.latency ≠ -1 ∧ hopLabel h = k := by
  constructor
  · rw [publishCycle, foldl_publishHopStep_hop_count]
    by_cases hc : t ≠ -1 <;> simp [hc]
  · intro k
    rw [publishCycle, foldl_publishHopStep_hop_latency]
    have hbase :
        (let m1 : Metrics :=
          { m with
            ping_latency := p.avg_latency
            packet_loss := (p.packet_loss : ℚ)
            hop_count := (hops.length : ℚ) }
         let m2 : Metrics := if t ≠ -1 then { m1 with app_response := t } else m1
         let m3 : Metrics := { m2 with hop_latency := [] }
         m3).hop_latency = [] := by
      by_cases hc : t ≠ -1 <;> simp [hc]
    rw [hbase, lookup_foldl_hopSeriesStep]
    simp [lookupLabel]

end NetAudit
